import Mathlib

/-!
Verification of the local recipe-extraction engine: a shallow embedding of
`parseIngredients`, `parseInstructions` and `parseRecipeFromComment` from
`src/unnamed/part_004` and of `parseStrombergRecipeLocal` from
`src/src/utils/shared_parser.ts`, together with theorems settling the
specification claims about them.

JavaScript strings are modelled as `List Char`; each JavaScript regular
expression used by the source is implemented as a specialised matcher whose
behaviour (leftmost match, greedy quantifiers with the backtracking the
concrete pattern admits, alternation order) is reproduced exactly for the
pattern at hand.  `toLowerCase`/`trim` are modelled on ASCII, which covers
every character the patterns inspect.
-/

/-- JavaScript whitespace (`\s`, `trim`) restricted to the ASCII range. -/
def isWsChar (c : Char) : Bool :=
  c = ' ' || c = '\t' || c = '\n' || c = '\r' || c = '\x0b' || c = '\x0c'

/-- JavaScript word character (`\w`), as used by the `\b` boundary. -/
def isWordChar (c : Char) : Bool :=
  c.isAlpha || c.isDigit || c = '_'

/-- ASCII `toLowerCase` over a character list. -/
def lowerL (s : List Char) : List Char := s.map Char.toLower

/-- JavaScript `String.prototype.trim` (both ends). -/
def trimL (s : List Char) : List Char :=
  ((s.dropWhile isWsChar).reverse.dropWhile isWsChar).reverse

/-- JavaScript `split('\n')`: keeps empty segments, `[""]` on empty input. -/
def splitNl : List Char → List (List Char)
  | [] => [[]]
  | c :: r =>
    if c = '\n' then [] :: splitNl r
    else
      match splitNl r with
      | h :: t => (c :: h) :: t
      | [] => [[c]]

/-- JavaScript `Array.prototype.join(sep)`. -/
def joinSep (sep : List Char) : List (List Char) → List Char
  | [] => []
  | [x] => x
  | x :: xs => x ++ sep ++ joinSep sep xs

/-- JavaScript `String.prototype.includes`: the pattern occurs somewhere. -/
def hasSub (pat : List Char) : List Char → Bool
  | [] => pat.isEmpty
  | c :: r => if pat.isPrefixOf (c :: r) then true else hasSub pat r

/-- Split the haystack around the leftmost occurrence of `pat`: returns the
part before the occurrence and the part after it. -/
def breakSub (pat : List Char) : List Char → Option (List Char × List Char)
  | [] => if pat.isEmpty then some ([], []) else none
  | c :: r =>
    if pat.isPrefixOf (c :: r) then some ([], (c :: r).drop pat.length)
    else (breakSub pat r).map (fun p => (c :: p.1, p.2))

/-- JavaScript `String.prototype.replace(pat, '')` for a plain-string
pattern: deletes the first occurrence, identity when there is none. -/
def replaceFirstSub (s pat : List Char) : List Char :=
  match breakSub pat s with
  | some (a, b) => a ++ b
  | none => s

/-- Value of a digit run (used for `parseInt` on all-digit captures). -/
def natOfDigits (d : List Char) : Nat :=
  d.foldl (fun a c => a * 10 + (c.toNat - 48)) 0

/-- `parseFloat` on a token of shape `\d+\.?\d*` or `\d*\.?\d+` (always a
finite value for these shapes; modelled exactly as a rational). -/
def ratOfNumTok (s : List Char) : ℚ :=
  let ip := s.takeWhile Char.isDigit
  let rest := s.drop ip.length
  let fp := match rest with
    | '.' :: r => r.takeWhile Char.isDigit
    | _ => []
  (natOfDigits ip : ℚ) + (natOfDigits fp : ℚ) / ((10 : ℚ) ^ fp.length)

/-- Greedy `\d+`: the maximal leading digit run (must be non-empty). -/
def digitsTok (s : List Char) : Option (List Char × List Char) :=
  let d := s.takeWhile Char.isDigit
  if d.isEmpty then none else some (d, s.drop d.length)

/-- Greedy `\d+\.?\d*` at the current position: maximal digit run, then an
optional dot, then the maximal following digit run.  For every pattern in
the source that uses this token, this canonical parse is the only parse any
backtracking search can accept, so it models the JavaScript semantics. -/
def numToken (s : List Char) : Option (List Char × List Char) :=
  match digitsTok s with
  | none => none
  | some (d, r) =>
    match r with
    | '.' :: r2 =>
      let d2 := r2.takeWhile Char.isDigit
      some (d ++ '.' :: d2, r2.drop d2.length)
    | _ => some (d, r)

/-- Anchored `^(\d+\.?\d*|\d*\.?\d+)` (the quantity number pattern of
`parseIngredients`): first alternative when the text starts with a digit,
otherwise the `.digits` form of the second alternative. -/
def numAnchored (s : List Char) : Option (List Char × List Char) :=
  match s with
  | [] => none
  | c :: r =>
    if c.isDigit then numToken s
    else if c = '.' then
      let d := r.takeWhile Char.isDigit
      if d.isEmpty then none else some ('.' :: d, r.drop d.length)
    else none

/-!
Ingredient Tokenizer — `parseIngredients` in `src/unnamed/part_004`
(lines 159–262).
-/

/-- Quantity of a parsed ingredient: `number | string` in the source
(`parseFloat` result for a plain decimal, the verbatim substring for a
fraction, `"N-M"` for a range). -/
inductive Quantity where
  | num (q : ℚ)
  | str (s : String)
deriving DecidableEq, Repr

/-- One parsed ingredient (`Ingredient` in `src/unnamed/part_004`). -/
structure Ingredient where
  name : String
  quantity : Option Quantity
  unit : Option String
  notes : Option String
deriving DecidableEq, Repr

/-- The fixed unit vocabulary of `parseIngredients`, in source order. -/
def unitsList : List String :=
  ["cup", "cups", "c", "c.",
   "tablespoon", "tablespoons", "tbsp", "tbsp.", "tbs", "tbs.", "T",
   "teaspoon", "teaspoons", "tsp", "tsp.", "t",
   "pound", "pounds", "lb", "lbs", "lb.", "lbs.",
   "ounce", "ounces", "oz", "oz.",
   "gram", "grams", "g", "g.",
   "kilogram", "kilograms", "kg", "kg.",
   "milliliter", "milliliters", "ml", "ml.",
   "liter", "liters", "l", "l.",
   "quart", "quarts", "qt", "qt.",
   "pint", "pints", "pt", "pt.",
   "gallon", "gallons", "gal", "gal.",
   "pinch", "dash", "handful",
   "can", "cans", "jar", "jars", "package", "packages", "pkg", "box", "boxes",
   "clove", "cloves", "piece", "pieces", "slice", "slices",
   "stick", "sticks", "head", "heads", "bunch", "bunches"]

/-- Keyword prefixes of `/^(ingredient|instruction|direction|step|method|prep|cook)/i`:
lines starting with one of these are skipped by the tokenizer. -/
def skipKeys : List String :=
  ["ingredient", "instruction", "direction", "step", "method", "prep", "cook"]

/-- Case-insensitive anchored prefix test for a keyword alternation. -/
def startsWithAnyCI (keys : List String) (s : List Char) : Bool :=
  keys.any (fun k => k.data.isPrefixOf (lowerL s))

/-- Characters of the bullet class `[\d\*\-\•\◦\→]` of the tokenizer's
leading-marker strip (note that it includes the digits). -/
def isBulletChar (c : Char) : Bool :=
  c.isDigit || c = '*' || c = '-' || c = '•' || c = '◦' || c = '→'

/-- `replace(/^[\d\*\-\•\◦\→]+\.?\s*/, '')`: one maximal run of bullet
characters, an optional dot, trailing whitespace; identity when the line
does not start with a bullet character. -/
def bulletStrip (s : List Char) : List Char :=
  match s with
  | [] => []
  | c :: _ =>
    if isBulletChar c then
      let t := s.dropWhile isBulletChar
      let t2 := match t with
        | '.' :: r => r
        | _ => t
      t2.dropWhile isWsChar
    else s

/-- Leftmost match of the range pattern `(\d+\.?\d*)\s*-\s*(\d+\.?\d*)`
(unanchored): returns `(match0, group1, group2)`.  At each starting
position only the canonical greedy parse of the first group can be
completed (every backtracked alternative ends in front of a digit or a dot
where `\s*-` must follow), so the scan below is exact. -/
def findRange : List Char → Option (List Char × List Char × List Char)
  | [] => none
  | c :: r =>
    let here :=
      match numToken (c :: r) with
      | none => none
      | some (g1, r1) =>
        let w1 := r1.takeWhile isWsChar
        match r1.drop w1.length with
        | '-' :: r2 =>
          let w2 := r2.takeWhile isWsChar
          match numToken (r2.drop w2.length) with
          | none => none
          | some (g2, _) => some (g1 ++ w1 ++ '-' :: (w2 ++ g2), g1, g2)
        | _ => none
    match here with
    | some m => some m
    | none => findRange r

/-- Leftmost match of the fraction pattern `(\d+\/\d+|\d+\s+\d+\/\d+)`
(unanchored, alternatives tried in source order): returns `match0`. -/
def findFrac : List Char → Option (List Char)
  | [] => none
  | c :: r =>
    let here :=
      match digitsTok (c :: r) with
      | none => none
      | some (d, r1) =>
        let altOne :=
          match r1 with
          | '/' :: r2 =>
            let d2 := r2.takeWhile Char.isDigit
            if d2.isEmpty then none else some (d ++ '/' :: d2)
          | _ => none
        match altOne with
        | some m => some m
        | none =>
          let w := r1.takeWhile isWsChar
          if w.isEmpty then none
          else
            match digitsTok (r1.drop w.length) with
            | none => none
            | some (d2, r2) =>
              match r2 with
              | '/' :: r3 =>
                let d3 := r3.takeWhile Char.isDigit
                if d3.isEmpty then none else some (d ++ w ++ d2 ++ '/' :: d3)
              | _ => none
    match here with
    | some m => some m
    | none => findFrac r

/-- Leftmost match of the notes pattern `\(([^)]+)\)`: returns
`(match0, captured group)`. -/
def findNotes : List Char → Option (List Char × List Char)
  | [] => none
  | c :: r =>
    if c = '(' then
      let inner := r.takeWhile (fun x => x ≠ ')')
      match r.drop inner.length with
      | ')' :: _ =>
        if inner.isEmpty then findNotes r
        else some ('(' :: inner ++ [')'], inner)
      | _ => findNotes r
    else findNotes r

/-- One pattern character of a unit token against one text character: the
token is spliced into a regex unescaped, so `'.'` matches any character;
letters match case-insensitively (the text is already lowercased). -/
def patCharOk (p c : Char) : Bool := p = '.' || p.toLower = c

/-- Match the unit token characters and then require a `\b` word boundary:
`prev` is the last consumed character. -/
def unitTestAux : List Char → Char → List Char → Bool
  | [], prev, rest =>
    isWordChar prev != (match rest with | c :: _ => isWordChar c | [] => false)
  | p :: ps, _, c :: r => patCharOk p c && unitTestAux ps c r
  | _ :: _, _, [] => false

/-- `new RegExp('^' + u + '\\b', 'i').test(s)` for a unit token `u`. -/
def unitTest (u : List Char) (s : List Char) : Bool :=
  match u with
  | [] => false
  | _ => unitTestAux u ' ' s

/-- Quantity-extraction block of `parseIngredients` (lines 203–227): range
match anywhere, else fraction match anywhere, else plain number anchored at
the start; the match is deleted from the working text (first occurrence,
which coincides with the match position) and the text re-trimmed.  The
`isNaN` guard of the source never fires, since every match of the number
pattern contains a digit. -/
def extractQuantity (c : List Char) : Option Quantity × List Char :=
  match findRange c with
  | some (m0, g1, g2) =>
    (some (Quantity.str (String.mk (g1 ++ '-' :: g2))), trimL (replaceFirstSub c m0))
  | none =>
    match findFrac c with
    | some m0 =>
      (some (Quantity.str (String.mk (trimL m0))), trimL (replaceFirstSub c m0))
    | none =>
      match numAnchored c with
      | some (m0, _) =>
        (some (Quantity.num (ratOfNumTok m0)), trimL (replaceFirstSub c m0))
      | none => (none, c)

/-- Unit-extraction block (lines 229–240): first vocabulary token matching
at the start of the lowercased text wins; the token's length is cut from
the working text, which is trimmed and then stripped of `^[s\.]?\s*`
(one optional lowercase `s` or dot, then whitespace). -/
def extractUnit (c : List Char) : Option String × List Char :=
  match unitsList.find? (fun u => unitTest u.data (lowerL c)) with
  | some u =>
    let c2 := trimL (c.drop u.length)
    let c3 := match c2 with
      | ch :: r => if ch = 's' || ch = '.' then r.dropWhile isWsChar
                   else c2.dropWhile isWsChar
      | [] => []
    (some u, c3)
  | none => (none, c)

/-- Notes-extraction block (lines 242–247): first parenthesized group is
captured and its whole match deleted from the working text. -/
def extractNotes (c : List Char) : Option String × List Char :=
  match findNotes c with
  | some (m0, inner) => (some (String.mk inner), trimL (replaceFirstSub c m0))
  | none => (none, c)

/-- Final assembly (lines 249–258): the remaining trimmed text is the name;
a line whose name is empty produces no ingredient. -/
def finishLine (c : List Char) (q : Option Quantity) (u : Option String)
    (n : Option String) : Option Ingredient :=
  if (trimL c).isEmpty then none else some ⟨String.mk (trimL c), q, u, n⟩

/-- Line admission and bullet strip (lines 188–196): trim, drop lines of
fewer than 3 characters, drop lines starting with a section-like keyword,
then strip the leading bullet run. -/
def preClean (line : String) : Option (List Char) :=
  let t := trimL line.data
  if t.length < 3 then none
  else if startsWithAnyCI skipKeys t then none
  else some (bulletStrip t)

/-- The tokenizer for one ingredient line, exactly in the source's stage
order: quantity, then unit, then notes, then name. -/
def parseIngredientLine (line : String) : Option Ingredient :=
  match preClean line with
  | none => none
  | some c0 =>
    let qc := extractQuantity c0
    let uc := extractUnit qc.2
    let nc := extractNotes uc.2
    finishLine nc.2 qc.1 uc.1 nc.1

/-- `parseIngredients` (lines 159–262): split on newlines, tokenize each
line, keep the lines that produced an ingredient. -/
def parseIngredients (text : String) : List Ingredient :=
  ((splitNl text.data).map String.mk).filterMap parseIngredientLine

/-- The tokenizer as the specification describes it (§4.2 order of
operations): notes extraction first, then quantity, then unit — written
only to be compared against `parseIngredientLine`, which follows the
source. -/
def tokenizeNotesFirst (line : String) : Option Ingredient :=
  match preClean line with
  | none => none
  | some c0 =>
    let nc := extractNotes c0
    let qc := extractQuantity nc.2
    let uc := extractUnit qc.2
    finishLine uc.2 qc.1 uc.1 nc.1

/-!
Claims about the Ingredient Tokenizer.
-/

/-- Helper: an ingredient emitted by the final assembly step always has a
non-empty name. -/
theorem finishLine_name (c : List Char) (q : Option Quantity) (u : Option String)
    (n : Option String) (ing : Ingredient) (h : finishLine c q u n = some ing) :
    ing.name ≠ "" := by
  unfold finishLine at h
  split at h
  · exact absurd h (by simp)
  · rename_i hne
    cases h
    intro hmk
    have hdata := congrArg String.data hmk
    simp only [String.data] at hdata
    rw [List.isEmpty_iff] at hne
    exact hne hdata

/-- Claim C1 (counterexample): the claim that notes extraction runs first,
so that quantity and unit extraction see the line with the parenthesized
group already removed, is false: on `"(fresh) 1-2 cups flour"` the source
extracts notes last, so unit extraction sees the line still starting with
the parenthesized group, finds no unit, and leaves `cups` inside the name,
while the spec-ordered pipeline extracts unit `cups` and name `flour`. -/
theorem c1_counterexample :
    parseIngredientLine "(fresh) 1-2 cups flour" ≠ tokenizeNotesFirst "(fresh) 1-2 cups flour"
    ∧ parseIngredientLine "(fresh) 1-2 cups flour" =
        some ⟨"cups flour", some (Quantity.str "1-2"), none, some "fresh"⟩
    ∧ tokenizeNotesFirst "(fresh) 1-2 cups flour" =
        some ⟨"flour", some (Quantity.str "1-2"), some "cups", some "fresh"⟩ := by
  decide

/-- Claim C1 (amended): notes extraction runs last, after quantity and unit
extraction: for every admitted line the tokenizer's result is the
composition with quantity extraction applied to the bullet-stripped text
(parenthesized group still present), unit extraction applied next, and
notes taken from the text remaining after both. -/
theorem c1_notes_extracted_last (line : String) (c0 : List Char)
    (h : preClean line = some c0) :
    parseIngredientLine line =
      finishLine (extractNotes (extractUnit (extractQuantity c0).2).2).2
        (extractQuantity c0).1
        (extractUnit (extractQuantity c0).2).1
        (extractNotes (extractUnit (extractQuantity c0).2).2).1 := by
  unfold parseIngredientLine
  rw [h]

/-- Witness for C1's amended theorem at `"butter (1/2 stick) softened"`. -/
theorem c1_notes_extracted_last_witness :
    parseIngredientLine "butter (1/2 stick) softened" =
      finishLine
        (extractNotes (extractUnit (extractQuantity ("butter (1/2 stick) softened".data)).2).2).2
        (extractQuantity ("butter (1/2 stick) softened".data)).1
        (extractUnit (extractQuantity ("butter (1/2 stick) softened".data)).2).1
        (extractNotes (extractUnit (extractQuantity ("butter (1/2 stick) softened".data)).2).2).1 :=
  c1_notes_extracted_last "butter (1/2 stick) softened" _ (by decide)

/-- Claim C2 (counterexample): quantity patterns are not all anchored at
the start: on `"abc 1-2"` the range pattern matches in the middle of the
line and consumes it, and on `"* 2 apples 1-3 bananas"` a later range match
wins while the line's leading numeric token `2` stays embedded in the
returned name. -/
theorem c2_counterexample :
    parseIngredients "abc 1-2" = [⟨"abc", some (Quantity.str "1-2"), none, none⟩]
    ∧ parseIngredients "* 2 apples 1-3 bananas" =
        [⟨"2 apples  bananas", some (Quantity.str "1-3"), none, none⟩] := by
  decide

/-- Claim C2 (amended): the range and fraction patterns match anywhere in
the working text (first occurrence wins) and only the plain decimal is
anchored at the start; when none of the three matches, the quantity stays
null and no text is consumed. -/
theorem c2_no_match_consumes_nothing (c : List Char)
    (h1 : findRange c = none) (h2 : findFrac c = none)
    (h3 : numAnchored c = none) :
    extractQuantity c = (none, c) := by
  unfold extractQuantity
  rw [h1, h2, h3]

/-- Witness for C2's amended theorem at `"fresh dill"`. -/
theorem c2_no_match_consumes_nothing_witness :
    extractQuantity ("fresh dill".data) = (none, "fresh dill".data) :=
  c2_no_match_consumes_nothing _ (by decide) (by decide) (by decide)

/-- Claim C3 (counterexample): a line whose text is empty after quantity
and unit removal produces no ingredient at all — `"2 cups"` yields an empty
list, not a sentinel `"Unknown ingredient"` record. -/
theorem c3_counterexample : parseIngredients "2 cups" = [] := by decide

/-- Claim C3 (amended): a line whose name is empty after tokenization is
silently dropped (the tokenizer emits nothing for it, and no error is
raised); consequently every emitted ingredient has a non-empty name.  The
`"Unknown ingredient"` sentinel exists only in the out-of-scope persistence
code, not in the tokenizer. -/
theorem c3_empty_name_dropped (line : String) (ing : Ingredient)
    (h : parseIngredientLine line = some ing) : ing.name ≠ "" := by
  unfold parseIngredientLine at h
  cases hp : preClean line with
  | none => rw [hp] at h; exact absurd h (by simp)
  | some c0 =>
    rw [hp] at h
    exact finishLine_name _ _ _ _ _ h

/-- Witness for C3's amended theorem at `"2 cups flour"`. -/
theorem c3_empty_name_dropped_witness :
    (Ingredient.mk "flour" none (some "cups") none).name ≠ "" :=
  c3_empty_name_dropped "2 cups flour" ⟨"flour", none, some "cups", none⟩ (by decide)

/-- Claim C4 (code bug): evaluating the tokenizer at the claim's own
examples: `"1 cup sugar"` returns name `"ugar"` (the plural-strip regex
`^[s\.]?\s*` eats the leading `s` of `sugar`) with a null quantity (the
leading `1` was consumed as a list marker by `^[\d\*\-\•\◦\→]+\.?\s*`);
`"2 cups flour"` likewise loses its quantity.  The spec requires
`{quantity: 1, unit: "cup", name: "sugar"}`. -/
theorem c4_code_bug_eval :
    parseIngredients "1 cup sugar" = [⟨"ugar", none, some "cup", none⟩]
    ∧ parseIngredients "2 cups flour" = [⟨"flour", none, some "cups", none⟩] := by
  decide

/-- Claim C10: any line whose trimmed text is shorter than 3 characters or
starts (case-insensitively) with one of the section-like keywords produces
no ingredient. -/
theorem c10_short_or_keyword_skipped (line : String)
    (h : (trimL line.data).length < 3
         ∨ startsWithAnyCI skipKeys (trimL line.data) = true) :
    parseIngredientLine line = none := by
  unfold parseIngredientLine preClean
  rcases h with h | h
  · rw [if_pos h]
  · by_cases h3 : (trimL line.data).length < 3
    · rw [if_pos h3]
    · rw [if_neg h3, if_pos h]

/-- Witness for C10 at the ordinary ingredient line `"prepared horseradish"`,
which is dropped because it starts with `prep`. -/
theorem c10_short_or_keyword_skipped_witness :
    parseIngredientLine "prepared horseradish" = none :=
  c10_short_or_keyword_skipped "prepared horseradish" (Or.inr (by decide))

/-!
Instruction Cleaner — `parseInstructions` in `src/unnamed/part_004`
(lines 267–295).
-/

/-- Global lazy-pair replacement `/D(.*?)D/g → $1` for a delimiter `D`
(used for `**bold**`, `*italic*` and `~~strikethrough~~`): successive
non-overlapping matches are replaced by their captured group, and scanning
resumes after each match.  The fuel argument only bounds the recursion (one
unit per replaced pair); since every replaced pair consumes at least two
characters of the remaining text, a fuel equal to the text length can never
be exhausted, so `replacePairs` computes the full fixpoint. -/
def replacePairsF (d : List Char) : Nat → List Char → List Char
  | 0, s => s
  | fuel + 1, s =>
    match breakSub d s with
    | none => s
    | some (pre, rest) =>
      match breakSub d rest with
      | none => s
      | some (inner, rest2) => pre ++ inner ++ replacePairsF d fuel rest2

/-- Entry point of the pair replacement with sufficient fuel. -/
def replacePairs (d s : List Char) : List Char :=
  replacePairsF d s.length s

/-- `replace(/^\*+|\*+$/g, '')`: strip every leading and trailing
asterisk. -/
def stripEdgeAst (s : List Char) : List Char :=
  ((s.dropWhile (fun c => c = '*')).reverse.dropWhile (fun c => c = '*')).reverse

/-- The numeric part `\d+[\.\)\:]?\s*` of the ordinal prefix: digits, one
optional closing punctuation mark, trailing whitespace. -/
def ordinalDigits (r : List Char) : Option (List Char) :=
  match digitsTok r with
  | none => none
  | some (_, r2) =>
    let r3 := match r2 with
      | c :: t => if c = '.' || c = ')' || c = ':' then t else r2
      | [] => r2
    some (r3.dropWhile isWsChar)

/-- `replace(/^(step\s+)?\d+[\.\)\:]?\s*/i, '')`: the optional `step`
group is preferred; if its continuation fails the bare numeric form is
tried; no match leaves the line unchanged. -/
def ordinalStrip (s : List Char) : List Char :=
  let withStep :=
    if ("step".data).isPrefixOf (lowerL (s.take 4)) then
      let r := s.drop 4
      let w := r.takeWhile isWsChar
      if w.isEmpty then none else ordinalDigits (r.drop w.length)
    else none
  match withStep with
  | some r => r
  | none =>
    match ordinalDigits s with
    | some r => r
    | none => s

/-- Characters of the bullet-glyph class `[\*\-\•\◦\→]` (no digits here,
unlike the tokenizer's class). -/
def isGlyphChar (c : Char) : Bool :=
  c = '*' || c = '-' || c = '•' || c = '◦' || c = '→'

/-- `replace(/^[\*\-\•\◦\→]+\s*/, '')`. -/
def glyphStrip (s : List Char) : List Char :=
  match s with
  | [] => []
  | c :: _ =>
    if isGlyphChar c then (s.dropWhile isGlyphChar).dropWhile isWsChar else s

/-- Unit alternatives of the measurement filter
`/^\d+\.?\d*\s*(cup|tbsp|tsp|oz|lb|gram|ml)/i`. -/
def measUnitAlts : List String :=
  ["cup", "tbsp", "tsp", "oz", "lb", "gram", "ml"]

/-- The anchored measurement test on a trimmed instruction line. -/
def measAnchored (t : List Char) : Bool :=
  match t with
  | [] => false
  | c :: _ =>
    if c.isDigit then
      match numToken t with
      | some (_, r) =>
        measUnitAlts.any (fun a => a.data.isPrefixOf (lowerL (r.dropWhile isWsChar)))
      | none => false
    else false

/-- Cleaning chain of `parseInstructions` (lines 279–287): ordinal prefix,
bullet glyphs, bold, italic, strikethrough, stray edge asterisks, trim. -/
def cleanInstr (t : List Char) : List Char :=
  trimL (stripEdgeAst (replacePairs ['~', '~']
    (replacePairs ['*'] (replacePairs ['*', '*'] (glyphStrip (ordinalStrip t))))))

/-- One line of `parseInstructions`: skip if shorter than 10 characters,
skip measurement-looking lines, clean, emit only if the cleaned length
exceeds 10. -/
def instructionStep (line : String) : Option String :=
  if (trimL line.data).length < 10 then none
  else if measAnchored (trimL line.data) then none
  else if 10 < (cleanInstr (trimL line.data)).length then
    some (String.mk (cleanInstr (trimL line.data)))
  else none

/-- `parseInstructions` (lines 267–295). -/
def parseInstructions (text : String) : List String :=
  ((splitNl text.data).map String.mk).filterMap instructionStep

set_option maxHeartbeats 2000000 in
/-- Claim C7: a cleaned line is emitted if and only if the raw trimmed line
is at least 10 characters long, does not match the ingredient-measurement
pattern, and cleans to a trimmed result of length strictly greater than 10;
consequently every emitted step is at least 11 characters long. -/
theorem c7_instruction_cleaner :
    (∀ line : String,
      instructionStep line =
        (if 10 ≤ (trimL line.data).length ∧ measAnchored (trimL line.data) = false
            ∧ 10 < (cleanInstr (trimL line.data)).length
         then some (String.mk (cleanInstr (trimL line.data))) else none))
    ∧ (∀ (line : String) (c : String), instructionStep line = some c → 11 ≤ c.length) := by
  constructor
  · intro line
    unfold instructionStep
    by_cases h1 : (trimL line.data).length < 10
    · rw [if_pos h1, if_neg]
      intro hc
      omega
    · rw [if_neg h1]
      by_cases h2 : measAnchored (trimL line.data)
      · rw [if_pos h2, if_neg]
        intro hc
        rw [hc.2.1] at h2
        exact Bool.false_ne_true h2
      · rw [if_neg h2]
        by_cases h3 : 10 < (cleanInstr (trimL line.data)).length
        · rw [if_pos h3, if_pos ⟨by omega, by simpa using h2, h3⟩]
        · rw [if_neg h3, if_neg]
          intro hc
          exact h3 hc.2.2
  · intro line c h
    unfold instructionStep at h
    split_ifs at h with h1 h2 h3
    cases h
    simpa [String.length] using h3

/-- Witness for C7 at the spec's own example `"Mix until smooth and creamy"`
(kept, length 27 ≥ 11). -/
theorem c7_instruction_cleaner_witness :
    11 ≤ ("Mix until smooth and creamy" : String).length :=
  c7_instruction_cleaner.2 "Mix until smooth and creamy"
    "Mix until smooth and creamy" (by decide)

/-!
Text Segmenter — section pass of `parseRecipeFromComment` in
`src/unnamed/part_004` (lines 300–348).
-/

/-- Current section of the segmenter's state machine. -/
inductive Sec where
  | ingredients
  | instructions
  | general
deriving DecidableEq, Repr

/-- The three line buckets. -/
structure Sections where
  ingredients : List String
  instructions : List String
  general : List String
deriving DecidableEq, Repr

/-- Header-detection preprocessing (lines 312–314): lowercase, trim, strip
every `* # - _ :` character, trim again. -/
def headerClean (line : String) : List Char :=
  trimL (((trimL (lowerL line.data)).filter
    (fun c => !(c = '*' || c = '#' || c = '-' || c = '_' || c = ':'))))

/-- Ingredient-header alternatives of
`/^(ingredient|what you need|you('ll)? need|materials|items)/i`. -/
def ingHeaderKeys : List String :=
  ["ingredient", "what you need", "you need", "you\x27ll need", "materials", "items"]

/-- Instruction-header alternatives of
`/^(instruction|direction|step|method|how to|preparation|prep|procedure)/i`. -/
def insHeaderKeys : List String :=
  ["instruction", "direction", "step", "method", "how to", "preparation",
   "prep", "procedure"]

/-- Does the cleaned line start an ingredients section? -/
def isIngHeader (cl : List Char) : Bool :=
  ingHeaderKeys.any (fun k => k.data.isPrefixOf cl)

/-- Does the cleaned line start an instructions section? -/
def isInsHeader (cl : List Char) : Bool :=
  insHeaderKeys.any (fun k => k.data.isPrefixOf cl)

/-- Header-based pass (lines 311–333): state machine with current section
starting at `general`; header lines switch the section and are discarded,
every other line is appended verbatim to the current bucket. -/
def pass1Aux : List String → Sec → Sections
  | [], _ => ⟨[], [], []⟩
  | l :: ls, cur =>
    let cl := headerClean l
    if isIngHeader cl then pass1Aux ls Sec.ingredients
    else if isInsHeader cl then pass1Aux ls Sec.instructions
    else
      let rest := pass1Aux ls cur
      match cur with
      | Sec.ingredients => ⟨l :: rest.ingredients, rest.instructions, rest.general⟩
      | Sec.instructions => ⟨rest.ingredients, l :: rest.instructions, rest.general⟩
      | Sec.general => ⟨rest.ingredients, rest.instructions, l :: rest.general⟩

/-- Unit alternatives of the fallback measurement pattern
`/\d+\.?\d*\s*(cup|tbsp|tsp|oz|lb|gram|ml|c\.|tsp\.|tbsp\.)/i`
(dots escaped in this regex, hence literal). -/
def measLooseAlts : List String :=
  ["cup", "tbsp", "tsp", "oz", "lb", "gram", "ml", "c.", "tsp.", "tbsp."]

/-- The unanchored measurement test of the fallback pass: some position
starts a number token followed by optional whitespace and a unit word. -/
def measLoose : List Char → Bool
  | [] => false
  | c :: r =>
    (if c.isDigit then
      match numToken (c :: r) with
      | some (_, rest) =>
        measLooseAlts.any
          (fun a => a.data.isPrefixOf (lowerL (rest.dropWhile isWsChar)))
      | none => false
    else false)
    || measLoose r

/-- Cooking-imperative verbs of the fallback pattern
`/^(mix|stir|add|pour|bake|cook|heat|boil|fry|blend|combine|place|put|remove|serve)/i`. -/
def verbKeys : List String :=
  ["mix", "stir", "add", "pour", "bake", "cook", "heat", "boil", "fry",
   "blend", "combine", "place", "put", "remove", "serve"]

/-- Fallback classification (lines 336–348): measurement-looking lines go
to `ingredients`, otherwise verb-initial lines go to `instructions`, and
all other lines go to no bucket. -/
def fallbackBuckets (lines : List String) : List String × List String :=
  (lines.filter (fun l => measLoose (trimL l.data)),
   lines.filter (fun l =>
     !measLoose (trimL l.data) && startsWithAnyCI verbKeys (trimL l.data)))

/-- Full segmentation: the header pass, replaced by the fallback
classification for the `ingredients`/`instructions` buckets exactly when
both of those buckets come out empty (the `general` bucket always keeps the
header pass's contents, as in the source). -/
def sectionsOfLines (lines : List String) : Sections :=
  let p := pass1Aux lines Sec.general
  if p.ingredients.isEmpty && p.instructions.isEmpty then
    ⟨(fallbackBuckets lines).1, (fallbackBuckets lines).2, p.general⟩
  else p

/-- Helper: when no line of `ls` is a section header, the header pass in
state `ingredients` appends every line, in order, to the ingredients
bucket. -/
theorem pass1Aux_no_headers (ls : List String)
    (h : ∀ l ∈ ls, isIngHeader (headerClean l) = false ∧
                   isInsHeader (headerClean l) = false) :
    pass1Aux ls Sec.ingredients = ⟨ls, [], []⟩ := by
  induction ls with
  | nil => rfl
  | cons l ls ih =>
    have hl := h l (by simp)
    have ihh := ih (fun x hx => h x (by simp [hx]))
    unfold pass1Aux
    simp only [hl.1, hl.2, if_false, Bool.false_eq_true]
    rw [ihh]

/-- Claim C6: (i) the content-heuristic fallback is skipped whenever the
header pass filled one of the two explicit buckets; (ii) in particular a
text whose first line is an ingredients header followed by at least one
non-header line puts exactly those following lines into the ingredients
bucket and never triggers the fallback; (iii) inside the fallback pass a
line matching neither the measurement pattern nor a leading cooking verb is
added to no bucket; (iv) conversely, when both explicit buckets are empty
after the header pass, the final sections are exactly the fallback
classification (with the general bucket kept from the header pass). -/
theorem c6_segmenter_fallback :
    (∀ lines : List String,
      ((pass1Aux lines Sec.general).ingredients ≠ [] ∨
       (pass1Aux lines Sec.general).instructions ≠ []) →
      sectionsOfLines lines = pass1Aux lines Sec.general)
    ∧ (∀ (h : String) (rest : List String),
        isIngHeader (headerClean h) = true → rest ≠ [] →
        (∀ l ∈ rest, isIngHeader (headerClean l) = false ∧
                     isInsHeader (headerClean l) = false) →
        (sectionsOfLines (h :: rest)).ingredients = rest ∧
        sectionsOfLines (h :: rest) = pass1Aux (h :: rest) Sec.general)
    ∧ (∀ (lines : List String) (l : String),
        measLoose (trimL l.data) = false →
        startsWithAnyCI verbKeys (trimL l.data) = false →
        l ∉ (fallbackBuckets lines).1 ∧ l ∉ (fallbackBuckets lines).2)
    ∧ (∀ lines : List String,
        (pass1Aux lines Sec.general).ingredients = [] →
        (pass1Aux lines Sec.general).instructions = [] →
        sectionsOfLines lines =
          ⟨(fallbackBuckets lines).1, (fallbackBuckets lines).2,
           (pass1Aux lines Sec.general).general⟩) := by
  refine ⟨?_, ?_, ?_, ?_⟩
  · intro lines h
    unfold sectionsOfLines
    have hc : ((pass1Aux lines Sec.general).ingredients.isEmpty &&
              (pass1Aux lines Sec.general).instructions.isEmpty) = false := by
      rcases h with h | h <;> simp [List.isEmpty_iff, h]
    simp [hc]
  · intro h rest hh hne hrest
    have hpass : pass1Aux (h :: rest) Sec.general = ⟨rest, [], []⟩ := by
      unfold pass1Aux
      simp only [hh, if_true]
      exact pass1Aux_no_headers rest hrest
    have hfinal : sectionsOfLines (h :: rest) = pass1Aux (h :: rest) Sec.general := by
      unfold sectionsOfLines
      rw [hpass]
      simp [List.isEmpty_iff, hne]
    refine ⟨?_, hfinal⟩
    rw [hfinal, hpass]
  · intro lines l h1 h2
    constructor <;> simp [fallbackBuckets, List.mem_filter, h1, h2]
  · intro lines h1 h2
    unfold sectionsOfLines
    simp [h1, h2]

/-- Witness for C6 at a text with an explicit `"Ingredients:"` header
followed by one non-measurement line: the fallback is not triggered and the
line lands verbatim in the ingredients bucket. -/
theorem c6_segmenter_fallback_witness :
    (sectionsOfLines ["Ingredients:", "love and care"]).ingredients = ["love and care"]
    ∧ sectionsOfLines ["Ingredients:", "love and care"] =
        pass1Aux ["Ingredients:", "love and care"] Sec.general :=
  c6_segmenter_fallback.2.1 "Ingredients:" ["love and care"]
    (by decide) (by decide) (by decide)

/-!
Metadata Inferencer — metadata blocks of `parseRecipeFromComment` in
`src/unnamed/part_004` (lines 373–602).
-/

/-- Leftmost-match search: try the position matcher `f` at every suffix,
left to right (JavaScript regex scanning). -/
def scanFor (f : List Char → Option α) : List Char → Option α
  | [] => f []
  | c :: r =>
    match f (c :: r) with
    | some a => some a
    | none => scanFor f r

/-- Keyword alternation at one position: alternatives are tried in order
and, when a keyword prefix matches but its continuation fails, the next
alternative is tried at the same position. -/
def altKeys : List String → (List Char → Option α) → List Char → Option α
  | [], _, _ => none
  | k :: ks, cont, s =>
    if k.data.isPrefixOf s then
      match cont (s.drop k.length) with
      | some a => some a
      | none => altKeys ks cont s
    else altKeys ks cont s

/-- First element of the list on which `f` succeeds. -/
def firstSomeL : List α → (α → Option β) → Option β
  | [], _ => none
  | a :: as, f =>
    match f a with
    | some b => some b
    | none => firstSomeL as f

/-- `[:\s]+` when a digit must follow (true in every pattern that uses it,
so the maximal run is the only viable parse): consumes at least one colon
or whitespace character. -/
def sepColonWs (s : List Char) : Option (List Char) :=
  let run := s.takeWhile (fun c => c = ':' || isWsChar c)
  if run.isEmpty then none else some (s.drop run.length)

/-- `(\d+(?:\s*-\s*\d+)?)`: digits with an optional, preferred range tail;
returns the verbatim capture. -/
def numRangeTok (s : List Char) : Option (List Char × List Char) :=
  match digitsTok s with
  | none => none
  | some (d1, r1) =>
    let w1 := r1.takeWhile isWsChar
    match r1.drop w1.length with
    | '-' :: r2 =>
      let w2 := r2.takeWhile isWsChar
      match digitsTok (r2.drop w2.length) with
      | some (d2, r3) => some (d1 ++ w1 ++ '-' :: (w2 ++ d2), r3)
      | none => some (d1, r1)
    | _ => some (d1, r1)

/-- Unit-word alternatives of the duration captures, in source order. -/
def timeUnitAlts : List String := ["min", "minute", "hr", "hour"]

/-- Candidate parses, in regex preference order, of a duration capture
`numPart\s*(?:min|minute|hr|hour)s?` built over the given numeric-part
tokenizer: each unit alternative is offered with the plural `s` preferred
when present (a caller whose pattern continues after the capture tries the
candidates in this order). -/
def durCandsOf (numPart : List Char → Option (List Char × List Char))
    (s : List Char) : List (List Char × List Char) :=
  match numPart s with
  | none => []
  | some (n, r) =>
    let w := r.takeWhile isWsChar
    let r2 := r.drop w.length
    timeUnitAlts.flatMap (fun a =>
      if a.data.isPrefixOf r2 then
        let r3 := r2.drop a.length
        match r3 with
        | 's' :: r4 => [(n ++ w ++ a.data ++ ['s'], r4), (n ++ w ++ a.data, r3)]
        | _ => [(n ++ w ++ a.data, r3)]
      else [])

/-- Duration capture with an optional numeric range. -/
def durCands (s : List Char) : List (List Char × List Char) :=
  durCandsOf numRangeTok s

/-- Duration capture with a plain number (the comment-variant `total` time
patterns have no range alternative). -/
def durCandsNR (s : List Char) : List (List Char × List Char) :=
  durCandsOf digitsTok s

/-- Noun alternation test (prefix, nothing required after). -/
def nounCheck (nouns : List String) (r : List Char) : Bool :=
  nouns.any (fun n => n.data.isPrefixOf r)

/-- Keyword alternatives of the first servings pattern
`(?:serves?|servings?|yields?|makes?)`, expanded in preference order. -/
def serveKeys : List String :=
  ["serves", "serve", "servings", "serving", "yields", "yield", "makes", "make"]

/-- Servings pattern 1: `/(?:serves?|servings?|yields?|makes?)[:\s]+(\d+(?:\s*-\s*\d+)?)/i`. -/
def servingsP1 (full : List Char) : Option (List Char) :=
  scanFor (altKeys serveKeys
    (fun r => (sepColonWs r).bind (fun r2 => (numRangeTok r2).map (·.1)))) full

/-- Servings pattern 2: `/servings?[:\s]+(\d+(?:\s*-\s*\d+)?)/i`. -/
def servingsP2 (full : List Char) : Option (List Char) :=
  scanFor (altKeys ["servings", "serving"]
    (fun r => (sepColonWs r).bind (fun r2 => (numRangeTok r2).map (·.1)))) full

/-- Servings pattern 3: `/makes?\s+(\d+)\s*(?:servings?|people|portions?)/i`. -/
def servingsP3 (full : List Char) : Option (List Char) :=
  scanFor (altKeys ["makes", "make"] (fun r =>
    let w := r.takeWhile isWsChar
    if w.isEmpty then none
    else
      (digitsTok (r.drop w.length)).bind (fun p =>
        if nounCheck ["serving", "people", "portion"] (p.2.dropWhile isWsChar)
        then some p.1 else none))) full

/-- Servings pattern 4: `/(?:for|feeds?)\s+(\d+)\s*(?:people|servings?)/i`. -/
def servingsP4 (full : List Char) : Option (List Char) :=
  scanFor (altKeys ["for", "feeds", "feed"] (fun r =>
    let w := r.takeWhile isWsChar
    if w.isEmpty then none
    else
      (digitsTok (r.drop w.length)).bind (fun p =>
        if nounCheck ["people", "serving"] (p.2.dropWhile isWsChar)
        then some p.1 else none))) full

/-- Servings pattern 5: `/(\d+)\s*(?:servings?|people|portions?)/i`. -/
def servingsP5 (full : List Char) : Option (List Char) :=
  scanFor (fun t =>
    (digitsTok t).bind (fun p =>
      if nounCheck ["serving", "people", "portion"] (p.2.dropWhile isWsChar)
      then some p.1 else none)) full

/-- `servingsMatch[1].includes('-') ? servingsMatch[1] : parseInt(...)`. -/
def servingsVal (m : List Char) : Quantity :=
  if m.contains '-' then Quantity.str (String.mk m)
  else Quantity.num ((natOfDigits (m.takeWhile Char.isDigit) : ℚ))

/-- Piece-count pattern `/(\d+)\s*(?:clusters?|cookies?|balls?|pieces?)/i`. -/
def piecesMatch (full : List Char) : Option Nat :=
  scanFor (fun t =>
    (digitsTok t).bind (fun p =>
      if nounCheck ["cluster", "cookie", "ball", "piece"] (p.2.dropWhile isWsChar)
      then some (natOfDigits p.1) else none)) full

/-- Servings inference fallback (lines 406–425): pan sizes, piece counts,
dish types; in the piece-count branch a failed piece match leaves the field
null. -/
def servingsFallback (full : List Char) : Option Quantity :=
  if hasSub "9x13".data full || hasSub "13x9".data full then some (Quantity.num 12)
  else if hasSub "8x8".data full || hasSub "square pan".data full then some (Quantity.num 8)
  else if hasSub "loaf pan".data full || hasSub "bread".data full then some (Quantity.num 10)
  else if hasSub "clusters".data full || hasSub "cookies".data full
          || hasSub "balls".data full then
    (piecesMatch full).map (fun n => Quantity.num (n : ℚ))
  else if hasSub "pizza".data full || hasSub "pie".data full then some (Quantity.num 8)
  else if hasSub "soup".data full || hasSub "stew".data full then some (Quantity.num 6)
  else none

/-- Servings cascade (lines 386–425). -/
def servingsOf (full : List Char) : Option Quantity :=
  match servingsP1 full <|> servingsP2 full <|> servingsP3 full
        <|> servingsP4 full <|> servingsP5 full with
  | some m => some (servingsVal m)
  | none => servingsFallback full

/-- `(?:\s+time)?` after a time-label keyword: whitespace then `time`,
preferred when it matches. -/
def timeOptGroup (r : List Char) : Option (List Char) :=
  let w := r.takeWhile isWsChar
  if w.isEmpty then none
  else if ("time".data).isPrefixOf (r.drop w.length) then
    some (r.drop (w.length + 4))
  else none

/-- Position matcher for `/KEY(?:\s+time)?[:\s]+(DUR)/i`: the optional
`time` group is preferred, and dropped when its continuation fails. -/
def keyOptTimeSepDur (k : String)
    (cands : List Char → List (List Char × List Char))
    (t : List Char) : Option (List Char) :=
  if k.data.isPrefixOf t then
    let r := t.drop k.length
    let cont := fun r2 =>
      (sepColonWs r2).bind (fun r3 => ((cands r3).head?).map (·.1))
    match timeOptGroup r with
    | some r2 =>
      match cont r2 with
      | some c => some c
      | none => cont r
    | none => cont r
  else none

/-- Position matcher for `/KEY\s+time[:\s]+(DUR)/i`. -/
def keyWsTimeSepDur (k : String)
    (cands : List Char → List (List Char × List Char))
    (t : List Char) : Option (List Char) :=
  if k.data.isPrefixOf t then
    let r := t.drop k.length
    let w := r.takeWhile isWsChar
    if w.isEmpty then none
    else if ("time".data).isPrefixOf (r.drop w.length) then
      (sepColonWs (r.drop (w.length + 4))).bind
        (fun r3 => ((cands r3).head?).map (·.1))
    else none
  else none

/-- Position matcher for prep pattern 4
`/(?:takes?\s+)?(\d+(?:\s*-\s*\d+)?\s*(?:min|minute|hr|hour)s?)\s*(?:to\s+)?prep/i`:
the duration candidates are tried in preference order because the pattern
continues after the capture. -/
def prepP4at (t : List Char) : Option (List Char) :=
  let core := fun (u : List Char) =>
    firstSomeL (durCands u) (fun p =>
      let r2 := p.2.dropWhile isWsChar
      let finish := fun (r3 : List Char) =>
        if ("prep".data).isPrefixOf r3 then some p.1 else none
      match (if ("to".data).isPrefixOf r2 then
               let r3 := r2.drop 2
               let w2 := r3.takeWhile isWsChar
               if w2.isEmpty then none else finish (r3.drop w2.length)
             else none) with
      | some c => some c
      | none => finish r2)
  match altKeys ["takes", "take"] (fun r =>
          let w := r.takeWhile isWsChar
          if w.isEmpty then none else core (r.drop w.length)) t with
  | some c => some c
  | none => core t

/-- Position matcher for cook pattern 3
`/(?:cooking|bake)(?:\s+time)?[:\s]+(DUR)/i`. -/
def cookP3at (t : List Char) : Option (List Char) :=
  match keyOptTimeSepDur "cooking" durCands t with
  | some c => some c
  | none => keyOptTimeSepDur "bake" durCands t

/-- Position matcher for cook pattern 4 `/(?:bake|cook)\s+for\s+(DUR)/i`. -/
def cookP4at (t : List Char) : Option (List Char) :=
  altKeys ["bake", "cook"] (fun r =>
    let w := r.takeWhile isWsChar
    if w.isEmpty then none
    else if ("for".data).isPrefixOf (r.drop w.length) then
      let r2 := r.drop (w.length + 3)
      let w2 := r2.takeWhile isWsChar
      if w2.isEmpty then none
      else ((durCands (r2.drop w2.length)).head?).map (·.1)
    else none) t

/-- Position matcher for total pattern 2
`/total\s+(?:cooking\s+)?time[:\s]+(\d+\s*(?:min|minute|hr|hour)s?)/i`. -/
def totalP2at (t : List Char) : Option (List Char) :=
  if ("total".data).isPrefixOf t then
    let r := t.drop 5
    let w := r.takeWhile isWsChar
    if w.isEmpty then none
    else
      let r2 := r.drop w.length
      let cont := fun (r4 : List Char) =>
        if ("time".data).isPrefixOf r4 then
          (sepColonWs (r4.drop 4)).bind
            (fun r5 => ((durCandsNR r5).head?).map (·.1))
        else none
      match (if ("cooking".data).isPrefixOf r2 then
               let r3 := r2.drop 7
               let w2 := r3.takeWhile isWsChar
               if w2.isEmpty then none else cont (r3.drop w2.length)
             else none) with
      | some c => some c
      | none => cont r2
  else none

/-- Position matcher for total pattern 3
`/all\s+together[:\s]+(\d+\s*(?:min|minute|hr|hour)s?)/i`. -/
def totalP3at (t : List Char) : Option (List Char) :=
  if ("all".data).isPrefixOf t then
    let r := t.drop 3
    let w := r.takeWhile isWsChar
    if w.isEmpty then none
    else if ("together".data).isPrefixOf (r.drop w.length) then
      (sepColonWs (r.drop (w.length + 8))).bind
        (fun r2 => ((durCandsNR r2).head?).map (·.1))
    else none
  else none

/-- Prep-time cascade with the complexity-based inference fallback
(lines 428–452). -/
def prepTimeOf (full : List Char) : Option String :=
  match scanFor (keyOptTimeSepDur "prep" durCands) full <|>
        scanFor (keyWsTimeSepDur "prep" durCands) full <|>
        scanFor (keyOptTimeSepDur "preparation" durCands) full <|>
        scanFor prepP4at full with
  | some c => some (String.mk c)
  | none =>
    if hasSub "tiramisu".data full || hasSub "layered".data full
       || hasSub "multiple steps".data full then some "60-90"
    else if hasSub "whisk".data full || hasSub "whip".data full
            || hasSub "fold".data full then some "30-45"
    else if hasSub "chop".data full || hasSub "dice".data full
            || hasSub "slice".data full then some "20-30"
    else none

/-- Cook-time cascade (lines 454–467). -/
def cookTimeOf (full : List Char) : Option String :=
  (scanFor (keyOptTimeSepDur "cook" durCands) full <|>
   scanFor (keyWsTimeSepDur "cook" durCands) full <|>
   scanFor cookP3at full <|>
   scanFor cookP4at full).map String.mk

/-- Total-time cascade (lines 469–478); no range alternative here. -/
def totalTimeOf (full : List Char) : Option String :=
  (scanFor (keyOptTimeSepDur "total" durCandsNR) full <|>
   scanFor totalP2at full <|>
   scanFor totalP3at full).map String.mk

/-- Difficulty word alternatives, in source order. -/
def diffWords : List String :=
  ["easy", "medium", "hard", "beginner", "intermediate", "advanced"]

/-- Difficulty pattern 1 `/difficulty[:\s]+(WORDS)/i`. -/
def diffP1 (full : List Char) : Option String :=
  scanFor (altKeys ["difficulty"] (fun r =>
    (sepColonWs r).bind (fun r2 =>
      firstSomeL diffWords (fun w =>
        if w.data.isPrefixOf r2 then some w else none)))) full

/-- Difficulty pattern 2 `/(?:level|skill)[:\s]+(WORDS)/i`. -/
def diffP2 (full : List Char) : Option String :=
  scanFor (altKeys ["level", "skill"] (fun r =>
    (sepColonWs r).bind (fun r2 =>
      firstSomeL diffWords (fun w =>
        if w.data.isPrefixOf r2 then some w else none)))) full

/-- Leftmost-match search that also tracks the character before the current
position (needed for a leading `\b`). -/
def scanPrev (f : Option Char → List Char → Option α) :
    Option Char → List Char → Option α
  | prev, [] => f prev []
  | prev, c :: r =>
    match f prev (c :: r) with
    | some a => some a
    | none => scanPrev f (some c) r

/-- Difficulty pattern 3 `/\b(WORDS)\b/i`: a difficulty word delimited by
word boundaries on both sides. -/
def diffP3 (full : List Char) : Option String :=
  scanPrev (fun prev t =>
    if (match prev with | none => true | some p => !isWordChar p) then
      firstSomeL diffWords (fun w =>
        if w.data.isPrefixOf t then
          match (t.drop w.length).head? with
          | none => some w
          | some c => if isWordChar c then none else some w
        else none)
    else none) none full

/-- Difficulty pattern 4 `/(?:super|very|really)\s+(easy|hard)/i`. -/
def diffP4 (full : List Char) : Option String :=
  scanFor (altKeys ["super", "very", "really"] (fun r =>
    let w := r.takeWhile isWsChar
    if w.isEmpty then none
    else
      firstSomeL ["easy", "hard"] (fun d =>
        if d.data.isPrefixOf (r.drop w.length) then some d else none))) full

/-- Difficulty before the override (lines 481–503): the four patterns in
cascade, then the lexical-cue fallback.  The captured word is already
lowercase because the scanned text is. -/
def difficultyBase (full : List Char) : Option String :=
  match diffP1 full <|> diffP2 full <|> diffP3 full <|> diffP4 full with
  | some d => some d
  | none =>
    if hasSub "simple".data full || hasSub "quick".data full
       || hasSub "basic".data full then some "easy"
    else if hasSub "complex".data full || hasSub "advanced".data full
            || hasSub "challenging".data full then some "hard"
    else none

/-- Layering/technique cues of the difficulty override (lines 505–509). -/
def diffCues (full : List Char) : Bool :=
  hasSub "tiramisu".data full || hasSub "layered".data full ||
  hasSub "multiple steps".data full || hasSub "whip".data full ||
  hasSub "fold".data full || hasSub "temper".data full

/-- Difficulty with the unconditional complexity override applied last. -/
def difficultyOf (full : List Char) : Option String :=
  if diffCues full then some "medium" else difficultyBase full

/-- Cuisine vocabulary of `parseRecipeFromComment`, in source order. -/
def cuisineKeys : List String :=
  ["italian", "mexican", "chinese", "japanese", "thai", "indian", "french",
   "mediterranean", "american", "greek", "korean", "vietnamese", "spanish",
   "german", "british", "caribbean", "middle eastern", "turkish", "lebanese",
   "moroccan", "persian", "african", "brazilian", "argentinian", "peruvian",
   "chilean", "australian", "canadian", "scandinavian"]

/-- Course vocabulary of `parseRecipeFromComment`, in source order. -/
def courseKeys : List String :=
  ["appetizer", "starter", "soup", "salad", "main course", "main dish",
   "entree", "side dish", "dessert", "snack", "breakfast", "lunch", "dinner",
   "brunch", "beverage", "drink", "cocktail", "sauce", "condiment", "dip",
   "spread"]

/-- Meal-type vocabulary of `parseRecipeFromComment`, in source order. -/
def mealKeys : List String :=
  ["breakfast", "brunch", "lunch", "dinner", "supper", "snack", "appetizer",
   "dessert", "midnight snack", "late night", "morning", "afternoon",
   "evening", "main course", "starter", "afternoon tea"]

/-- Dietary-tag vocabulary of `parseRecipeFromComment`, in source order. -/
def dietaryKeys : List String :=
  ["vegan", "vegetarian", "gluten-free", "dairy-free", "nut-free",
   "soy-free", "keto", "paleo", "low-carb", "low-fat", "high-protein",
   "sugar-free", "halal", "kosher", "raw", "organic", "whole30", "atkins",
   "south beach"]

/-- First keyword of the list occurring anywhere in the text (the
break-on-first-match loops of the source). -/
def findKeyword (keys : List String) (full : List Char) : Option String :=
  keys.find? (fun k => hasSub k.data full)

/-- Meal type: exact keyword first, then the dish-type inference chains
(lines 548–577). -/
def mealTypeOf (full : List Char) : Option String :=
  match findKeyword mealKeys full with
  | some m => some m
  | none =>
    if hasSub "cake".data full || hasSub "cookie".data full
       || hasSub "pie".data full || hasSub "tiramisu".data full
       || hasSub "ice cream".data full || hasSub "pudding".data full
       || hasSub "cheesecake".data full || hasSub "mousse".data full
       || hasSub "tart".data full || hasSub "rolls".data full
       || hasSub "muffin".data full || hasSub "brownie".data full
       || hasSub "donut".data full || hasSub "cupcake".data full then
      some "dessert"
    else if hasSub "soup".data full || hasSub "stew".data full
            || hasSub "broth".data full then some "soup"
    else if hasSub "pancake".data full || hasSub "waffle".data full
            || hasSub "toast".data full || hasSub "cereal".data full
            || hasSub "oatmeal".data full then some "breakfast"
    else if hasSub "pizza".data full || hasSub "burger".data full
            || hasSub "sandwich".data full || hasSub "pasta".data full
            || hasSub "rice".data full || hasSub "noodle".data full
            || hasSub "chicken".data full || hasSub "beef".data full
            || hasSub "pork".data full || hasSub "fish".data full
            || hasSub "shrimp".data full then some "main"
    else if hasSub "dip".data full || hasSub "sauce".data full
            || hasSub "spread".data full || hasSub "cracker".data full
            || hasSub "chip".data full || hasSub "bite".data full then
      some "snack"
    else none

/-- The push loop over a keyword vocabulary (`for ... if includes ... push`):
keywords are accumulated in vocabulary order. -/
def collectTags (keys : List String) (full : List Char) : List String :=
  keys.foldl (fun acc k => if hasSub k.data full then acc ++ [k] else acc) []

/-- Dietary tags (lines 579–595): all matching keywords, empty becomes
null. -/
def dietaryTagsOf (full : List Char) : Option (List String) :=
  if (collectTags dietaryKeys full).isEmpty then none
  else some (collectTags dietaryKeys full)

/-- `line.match(/^\d+\./)`: digits then a literal dot. -/
def startsNumDot (l : List Char) : Bool :=
  match digitsTok l with
  | some (_, r) => match r with | '.' :: _ => true | _ => false
  | none => false

/-- Description admission test (lines 359–371) on a trimmed line. -/
def descOk (l : List Char) : Bool :=
  30 < l.length &&
  !hasSub "ingredients".data (lowerL l) &&
  !hasSub "directions".data (lowerL l) &&
  !hasSub "instructions".data (lowerL l) &&
  !hasSub "method".data (lowerL l) &&
  !startsNumDot l &&
  !(("**".data).isPrefixOf l) &&
  !(("-".data).isPrefixOf l)

/-- Description scan (lines 355–371): first substantial trimmed line. -/
def descriptionOf (comment : String) : Option String :=
  ((((splitNl comment.data).map trimL).filter
    (fun l => l.length ≠ 0)).find? descOk).map String.mk

/-!
Recipe Assembler, comment variant — `parseRecipeFromComment`
(`src/unnamed/part_004`, lines 300–619).
-/

/-- Output record (`RecipeData` in `src/unnamed/part_004`). -/
structure RecipeData where
  title : String
  description : Option String
  ingredients : List Ingredient
  instructions : List String
  prepTime : Option String
  cookTime : Option String
  totalTime : Option String
  servings : Option Quantity
  difficulty : Option String
  cuisine : Option String
  course : Option String
  mealType : Option String
  dietaryTags : Option (List String)
deriving DecidableEq, Repr

/-- Description fallback (lines 598–602): first three general-bucket lines
joined by spaces, trimmed, truncated to 500 characters, empty string
becoming null. -/
def generalDesc (secs : Sections) : Option String :=
  let g := (trimL (joinSep [' '] ((secs.general.take 3).map String.data))).take 500
  if g.isEmpty then none else some (String.mk g)

/-- `parseRecipeFromComment(comment, title)`. -/
def parseRecipeFromComment (comment title : String) : RecipeData :=
  let secs := sectionsOfLines ((splitNl comment.data).map String.mk)
  let full := lowerL comment.data
  RecipeData.mk
    title
    (match descriptionOf comment with
     | some d => some d
     | none => generalDesc secs)
    (parseIngredients (String.mk (joinSep ['\n'] (secs.ingredients.map String.data))))
    (parseInstructions (String.mk (joinSep ['\n'] (secs.instructions.map String.data))))
    (prepTimeOf full)
    (cookTimeOf full)
    (totalTimeOf full)
    (servingsOf full)
    (difficultyOf full)
    (findKeyword cuisineKeys full)
    (findKeyword courseKeys full)
    (mealTypeOf full)
    (dietaryTagsOf full)

/-!
Recipe Assembler, pre-segmented array variant — `parseStrombergRecipeLocal`
(`src/src/utils/shared_parser.ts`, lines 416–564).
-/

/-- `ParsedIngredient` of `shared_parser.ts`: an amount/name pair. -/
structure PIngredient where
  amount : String
  name : String
deriving DecidableEq, Repr

/-- Output record (`RecipeData` in `shared_parser.ts`). -/
structure SRecipeData where
  title : String
  description : Option String
  ingredients : List PIngredient
  instructions : List String
  prepTime : Option String
  cookTime : Option String
  totalTime : Option String
  servings : Option Quantity
  difficulty : Option String
  cuisine : Option String
  course : Option String
  mealType : Option String
  dietaryTags : Option (List String)
deriving DecidableEq, Repr

/-- Length of one separator match `\s*[-–—]\s*|\s*:\s*` anchored at the
current position (`None` when neither alternative matches here). -/
def sepMatchAt (s : List Char) : Option Nat :=
  let w := s.takeWhile isWsChar
  match s.drop w.length with
  | c :: r2 =>
    if c = '-' || c = '–' || c = '—' || c = ':' then
      some (w.length + 1 + (r2.takeWhile isWsChar).length)
    else none
  | [] => none

/-- JavaScript `split(/\s*[-–—]\s*|\s*:\s*/)`: split at every leftmost
separator match, keeping empty segments.  The fuel (one unit per consumed
character, each separator consuming at least one) cannot be exhausted. -/
def splitSepF : Nat → List Char → List (List Char)
  | 0, s => [s]
  | fuel + 1, s =>
    match s with
    | [] => [[]]
    | c :: r =>
      match sepMatchAt (c :: r) with
      | some k => [] :: splitSepF fuel ((c :: r).drop k)
      | none =>
        match splitSepF fuel r with
        | h :: t => (c :: h) :: t
        | [] => [[c]]

/-- Entry point of the separator split with sufficient fuel. -/
def splitSepL (s : List Char) : List (List Char) :=
  splitSepF s.length s

/-- Unit alternatives of the amount pattern of `parseStrombergRecipeLocal`
(dots escaped in the source, hence literal), in source order. -/
def amountUnitAlts : List String :=
  ["cup", "tbsp", "tsp", "oz", "lb", "gram", "ml", "c.", "tsp.", "tbsp.",
   "tablespoon", "teaspoon", "ounce", "pound", "kilogram", "liter", "g",
   "kg", "l", "ml", "cl", "dl"]

/-- The anchored amount capture
`/^(\d+(?:\/\d+)?(?:\s+\d+\/\d+)?(?:\s*(?:UNITS))?\s*)/i`: digits, an
optional `/digits` tail, an optional space-separated fraction, an optional
unit word, trailing whitespace; each optional group is taken greedily when
it matches in full. -/
def amountTok (s : List Char) : Option (List Char) :=
  match digitsTok s with
  | none => none
  | some (d1, r1) =>
    let p1 := match r1 with
      | '/' :: rr =>
        match digitsTok rr with
        | some (d2, rr2) => ('/' :: d2, rr2)
        | none => (([] : List Char), r1)
      | _ => (([] : List Char), r1)
    let r2 := p1.2
    let p2 := match (let w := r2.takeWhile isWsChar
                     if w.isEmpty then none
                     else
                       match digitsTok (r2.drop w.length) with
                       | some (d3, rr) =>
                         match rr with
                         | '/' :: rr2 =>
                           match digitsTok rr2 with
                           | some (d4, rr3) => some (w ++ d3 ++ '/' :: d4, rr3)
                           | none => none
                         | _ => none
                       | none => none) with
      | some p => p
      | none => (([] : List Char), r2)
    let r3 := p2.2
    let p3 := match (let w := r3.takeWhile isWsChar
                     match amountUnitAlts.find?
                       (fun a => a.data.isPrefixOf (lowerL (r3.drop w.length))) with
                     | some a => some (w ++ (r3.drop w.length).take a.length,
                                       r3.drop (w.length + a.length))
                     | none => none) with
      | some p => p
      | none => (([] : List Char), r3)
    some (d1 ++ p1.1 ++ p2.1 ++ p3.1 ++ p3.2.takeWhile isWsChar)

/-- One ingredient of the array variant (lines 418–441): split on
dash/colon separators; with fewer than two parts, extract a leading
amount; otherwise the whole string is the name. -/
def strIngredientOf (ing : String) : PIngredient :=
  let parts := splitSepL ing.data
  if 2 ≤ parts.length then
    PIngredient.mk (String.mk (trimL (parts.headD [])))
      (String.mk (trimL (joinSep [' '] (parts.tail))))
  else
    match amountTok ing.data with
    | some m =>
      PIngredient.mk (String.mk (trimL m))
        (String.mk (trimL (ing.data.drop m.length)))
    | none => PIngredient.mk "" ing

/-- `replace(/^\d+\.?\s*/, '')` of the array-variant direction cleaning. -/
def strNumStrip (s : List Char) : List Char :=
  match s with
  | [] => []
  | c :: _ =>
    if c.isDigit then
      let d := s.dropWhile Char.isDigit
      let d2 := match d with
        | '.' :: r => r
        | _ => d
      d2.dropWhile isWsChar
    else s

/-- Direction cleaning of the array variant (lines 444–453): numbering,
bold, italic, strikethrough, edge asterisks, trim (no bullet strip and no
up-front length check here). -/
def strClean (d : List Char) : List Char :=
  trimL (stripEdgeAst (replacePairs ['~', '~']
    (replacePairs ['*'] (replacePairs ['*', '*'] (strNumStrip d)))))

/-- Cuisine vocabulary of the array variant, in source order. -/
def strCuisineKeys : List String :=
  ["italian", "mexican", "chinese", "japanese", "thai", "indian", "french",
   "mediterranean", "american", "greek", "korean", "vietnamese", "spanish",
   "german", "british", "caribbean"]

/-- Course vocabulary of the array variant, in source order. -/
def strCourseKeys : List String :=
  ["appetizer", "starter", "soup", "salad", "main dish", "main course",
   "side dish", "dessert", "beverage", "drink", "snack", "breakfast",
   "lunch", "dinner", "brunch", "sauce", "dip"]

/-- Meal-type vocabulary of the array variant, in source order. -/
def strMealKeys : List String :=
  ["breakfast", "brunch", "lunch", "dinner", "supper", "snack", "appetizer",
   "dessert"]

/-- Dietary vocabulary of the array variant, in source order. -/
def strDietaryKeys : List String :=
  ["vegan", "vegetarian", "gluten-free", "dairy-free", "nut-free",
   "soy-free", "keto", "paleo", "low-carb", "high-protein", "raw",
   "organic", "halal", "kosher"]

/-- Difficulty of the array variant (lines 479–488): the explicit label
pattern, then `simple`/`quick` to easy and `complex`/`advanced` to hard;
there is no layering/technique override in this variant. -/
def strDifficultyOf (full : List Char) : Option String :=
  match diffP1 full with
  | some d => some d
  | none =>
    if hasSub "simple".data full || hasSub "quick".data full then some "easy"
    else if hasSub "complex".data full || hasSub "advanced".data full then
      some "hard"
    else none

/-- `[...ingredients, ...directions].join(' ').toLowerCase()`. -/
def strCombined (ings dirs : List String) : List Char :=
  lowerL (joinSep [' '] ((ings ++ dirs).map String.data))

/-- `parseStrombergRecipeLocal(ingredients, directions, title)`. -/
def parseStrombergRecipeLocal (ings dirs : List String) (title : String) :
    SRecipeData :=
  let combined := strCombined ings dirs
  SRecipeData.mk
    title
    none
    (ings.map strIngredientOf)
    ((dirs.map (fun d => String.mk (strClean d.data))).filter
      (fun i => 10 < i.length))
    ((scanFor (keyOptTimeSepDur "prep" durCands) combined).map String.mk)
    ((scanFor (keyOptTimeSepDur "cook" durCands) combined).map String.mk)
    ((scanFor (keyOptTimeSepDur "total" durCands) combined).map String.mk)
    ((servingsP1 combined).map servingsVal)
    (strDifficultyOf combined)
    (findKeyword strCuisineKeys combined)
    (findKeyword strCourseKeys combined)
    (findKeyword strMealKeys combined)
    (if (collectTags strDietaryKeys combined).isEmpty then none
     else some (collectTags strDietaryKeys combined))

/-!
Claims about the Metadata Inferencer and the two assembler variants.
-/

/-- Claim C5 (amended): the difficulty override is absolute in the
comment-variant assembler: whenever the lowercased comment contains one of
the layering/technique cues, the output difficulty is `medium`, whatever
any label-based cascade produced.  (The array variant has no such
override — see the counterexample.) -/
theorem c5_override_comment_variant (comment title : String)
    (h : diffCues (lowerL comment.data) = true) :
    (parseRecipeFromComment comment title).difficulty = some "medium" := by
  show difficultyOf (lowerL comment.data) = some "medium"
  unfold difficultyOf
  simp [h]

/-- Witness for C5's amended theorem at the spec's own example text. -/
theorem c5_override_comment_variant_witness :
    (parseRecipeFromComment "Easy Tiramisu recipe: fold in the whipped cream"
      "T").difficulty = some "medium" :=
  c5_override_comment_variant "Easy Tiramisu recipe: fold in the whipped cream"
    "T" (by decide)

/-- Claim C5 (counterexample): the override is absent from the array
variant: a Stromberg input whose scanned text contains `tiramisu`, `fold`
and `whip` still yields a null difficulty, not `medium`. -/
theorem c5_counterexample :
    hasSub "tiramisu".data
      (strCombined ["tiramisu"] ["fold in the whipped cream please"]) = true
    ∧ (parseStrombergRecipeLocal ["tiramisu"]
        ["fold in the whipped cream please"] "t").difficulty ≠ some "medium"
    ∧ (parseStrombergRecipeLocal ["tiramisu"]
        ["fold in the whipped cream please"] "t").difficulty = none := by
  refine ⟨by decide, by decide, by decide⟩

/-- Helper: the source's accumulate-in-a-loop tag collection equals a
filter of the vocabulary, so tags come out in vocabulary order. -/
theorem collectTags_eq_filter (keys : List String) (full : List Char) :
    collectTags keys full = keys.filter (fun k => hasSub k.data full) := by
  have haux : ∀ (ks : List String) (acc : List String),
      ks.foldl (fun acc k => if hasSub k.data full then acc ++ [k] else acc) acc
        = acc ++ ks.filter (fun k => hasSub k.data full) := by
    intro ks
    induction ks with
    | nil => intro acc; simp
    | cons k ks ih =>
      intro acc
      simp only [List.foldl_cons, List.filter_cons]
      by_cases h : hasSub k.data full = true
      · rw [if_pos h, ih, if_pos h]
        simp
      · rw [if_neg h, ih, if_neg h]
  unfold collectTags
  simpa using haux keys []

/-- Claim C8: the dietary-tags field is null exactly when no vocabulary
keyword occurs in the lowercased comment, and otherwise it is exactly the
list of all occurring vocabulary keywords, in vocabulary order (the filter
of the vocabulary by occurrence). -/
theorem c8_dietary_tags (comment title : String) :
    ((parseRecipeFromComment comment title).dietaryTags = none ↔
      ∀ k ∈ dietaryKeys, hasSub k.data (lowerL comment.data) = false)
    ∧ (∀ l, (parseRecipeFromComment comment title).dietaryTags = some l →
        l = dietaryKeys.filter (fun k => hasSub k.data (lowerL comment.data))
        ∧ ∀ k, k ∈ l ↔
            (k ∈ dietaryKeys ∧ hasSub k.data (lowerL comment.data) = true)) := by
  have hd : (parseRecipeFromComment comment title).dietaryTags
      = dietaryTagsOf (lowerL comment.data) := rfl
  rw [hd]
  unfold dietaryTagsOf
  rw [collectTags_eq_filter]
  split_ifs with he
  · rw [List.isEmpty_iff] at he
    constructor
    · constructor
      · intro _ k hk
        have hnk := List.filter_eq_nil_iff.mp he k hk
        simpa using hnk
      · intro _
        rfl
    · intro l hl
      exact absurd hl (by simp)
  · rw [List.isEmpty_iff] at he
    constructor
    · constructor
      · intro h0
        exact absurd h0 (by simp)
      · intro hall
        exfalso
        apply he
        apply List.filter_eq_nil_iff.mpr
        intro a ha
        simp [hall a ha]
    · intro l hl
      have hlF : dietaryKeys.filter
          (fun k => hasSub k.data (lowerL comment.data)) = l := by
        simpa using hl
      constructor
      · exact hlF.symm
      · intro k
        rw [← hlF, List.mem_filter]

/-- Witness for C8 at a text containing both `vegan` and `gluten-free`:
the tags are exactly those two keywords, in vocabulary order. -/
theorem c8_dietary_tags_witness :
    (["vegan", "gluten-free"] : List String) =
      dietaryKeys.filter
        (fun k => hasSub k.data (lowerL ("this is vegan and gluten-free food".data)))
    ∧ ∀ k, k ∈ (["vegan", "gluten-free"] : List String) ↔
        (k ∈ dietaryKeys ∧
         hasSub k.data (lowerL ("this is vegan and gluten-free food".data)) = true) :=
  (c8_dietary_tags "this is vegan and gluten-free food" "T").2
    ["vegan", "gluten-free"] (by decide)

/-- Claim C9: both engine entry points are deterministic pure functions:
equal inputs give structurally identical output records.  (In this shallow
embedding both entry points are total functions of their arguments alone;
the source functions read no mutable or external state and use no
randomness, which is what the embedding encodes.) -/
theorem c9_deterministic :
    (∀ (c₁ t₁ c₂ t₂ : String), c₁ = c₂ → t₁ = t₂ →
      parseRecipeFromComment c₁ t₁ = parseRecipeFromComment c₂ t₂)
    ∧ (∀ (i₁ d₁ : List String) (t₁ : String) (i₂ d₂ : List String) (t₂ : String),
        i₁ = i₂ → d₁ = d₂ → t₁ = t₂ →
        parseStrombergRecipeLocal i₁ d₁ t₁ = parseStrombergRecipeLocal i₂ d₂ t₂) := by
  constructor
  · intro c₁ t₁ c₂ t₂ hc ht
    rw [hc, ht]
  · intro i₁ d₁ t₁ i₂ d₂ t₂ hi hdd ht
    rw [hi, hdd, ht]

/-- Witness for C9 at concrete inputs for both variants. -/
theorem c9_deterministic_witness :
    parseRecipeFromComment "mix the dough" "A" = parseRecipeFromComment "mix the dough" "A"
    ∧ parseStrombergRecipeLocal ["salt"] ["stir well"] "B" =
        parseStrombergRecipeLocal ["salt"] ["stir well"] "B" :=
  ⟨c9_deterministic.1 "mix the dough" "A" "mix the dough" "A" rfl rfl,
   c9_deterministic.2 ["salt"] ["stir well"] "B" ["salt"] ["stir well"] "B" rfl rfl rfl⟩
